import Mathlib

/-!
Verification of the gym-membership-manager repository: a shallow embedding of
the Express route handlers in `server/server.js` (the Record Store) and of the
React cache handlers in `client/src/App.js` (the View Reconciler), with proofs
of the behavioural claims about member create/update/delete/list.

Machine conventions of the embedding:
* a member row is a `Member`; the MySQL `members` table is a `Store` (row list
  plus the auto-increment counter);
* JSON body fields are `Option String` (`none` = key absent); the handlers
  destructure them and test them by JavaScript truthiness, under which the
  absent value and the empty string behave identically, so the core handler
  functions take plain `String`s with `""` standing for a falsy field;
* the JavaScript numeric coercion used by `isNaN(id)` and by the SQL
  comparison `id = ?` is modelled by `jsStrToNumber`, which implements the
  ECMAScript StringNumericLiteral grammar (whitespace trimming, the empty
  string coercing to 0, optionally signed decimal literals with fraction and
  exponent, optionally signed Infinity, and unsigned hex/octal/binary
  integer literals) into an exact value `JsNum`, with the infinities encoded
  as a zero denominator;
* route handlers return `Except ApiError ...`; the `crash` constructor stands
  for the uncaught exception thrown by `toISOString` on an invalid date
  (that call sits outside the handler's try/catch in the source).
-/

namespace Gym

/-! ## JavaScript string-to-number coercion (`isNaN(id)` and `WHERE id = ?`) -/

/-- Whitespace characters stripped by the JavaScript ToNumber coercion: the
ECMAScript `StrWhiteSpaceChar` set, that is TAB, LF, VT, FF, CR, the
category-Zs spaces (SPACE, NBSP, OGHAM SPACE MARK, U+2000–U+200A, NARROW
NBSP, MEDIUM MATHEMATICAL SPACE, IDEOGRAPHIC SPACE), the line and paragraph
separators, and ZWNBSP. -/
def isWsChar (c : Char) : Bool :=
  (9 ≤ c.toNat && c.toNat ≤ 13) || c.toNat = 32 || c.toNat = 160 || c.toNat = 0x1680 ||
  (0x2000 ≤ c.toNat && c.toNat ≤ 0x200A) || c.toNat = 0x2028 || c.toNat = 0x2029 ||
  c.toNat = 0x202F || c.toNat = 0x205F || c.toNat = 0x3000 || c.toNat = 0xFEFF

/-- Decimal digit test on a character (code points 48–57). -/
def isDigitChar (c : Char) : Bool :=
  48 ≤ c.toNat && c.toNat ≤ 57

/-- Hexadecimal digit test on a character. -/
def isHexDigitChar (c : Char) : Bool :=
  (48 ≤ c.toNat && c.toNat ≤ 57) || (65 ≤ c.toNat && c.toNat ≤ 70) ||
  (97 ≤ c.toNat && c.toNat ≤ 102)

/-- Octal digit test on a character (code points 48–55). -/
def isOctDigitChar (c : Char) : Bool :=
  48 ≤ c.toNat && c.toNat ≤ 55

/-- Binary digit test on a character. -/
def isBinDigitChar (c : Char) : Bool :=
  c.toNat = 48 || c.toNat = 49

/-- Numeric value of a hexadecimal digit character (also correct for the
octal, binary and decimal subsets). -/
def hexDigitVal (c : Char) : Nat :=
  if c.toNat ≤ 57 then c.toNat - 48
  else if c.toNat ≤ 70 then c.toNat - 55
  else c.toNat - 87

/-- Numeric value of a decimal digit character. -/
def digitVal (c : Char) : Nat := c.toNat - 48

/-- Character for a decimal digit value. -/
def digitChar (n : Nat) : Char := Char.ofNat (48 + n)

/-- Value of a big-endian list of decimal digit characters. -/
def digitsToNat (cs : List Char) : Nat :=
  cs.foldl (fun a c => 10 * a + digitVal c) 0

/-- Value of a big-endian list of digit characters in base `b` (used for the
binary, octal and hexadecimal integer literals of the ToNumber grammar). -/
def digitsToNatBase (b : Nat) (cs : List Char) : Nat :=
  cs.foldl (fun a c => b * a + hexDigitVal c) 0

/-- Strip leading and trailing whitespace from a character list. -/
def trimChars (cs : List Char) : List Char :=
  ((cs.dropWhile isWsChar).reverse.dropWhile isWsChar).reverse

/-- Exact value of a JavaScript numeric string: `num / den`, where for a
decimal literal `den` is the positive power of ten accumulated from the
fraction and a negative exponent, for a radix (hex/octal/binary) literal
`den` is 1, and `den = 0` encodes the infinite values `Infinity` (`num` 1)
and `-Infinity` (`num` -1).  Kept unnormalized so that every operation is
plain integer arithmetic. -/
structure JsNum where
  num : Int
  den : Nat
deriving DecidableEq

/-- Test whether a `JsNum` equals a natural number (the comparison the SQL
layer performs between the coerced `:id` parameter and the integer `id`
column): `num / den = n`, i.e. `num = n * den`; an infinite value
(`den = 0`, `num` nonzero) equals no natural number.  The exact comparison
coincides with the double comparison MySQL performs whenever the value is
exactly representable in binary floating point, which holds for every id
string the theorems below exercise. -/
def JsNum.eqNat (q : JsNum) (n : Nat) : Bool :=
  q.num = (n : Int) * (q.den : Int)

/-- Parse the unsigned mantissa of a decimal literal: digits with an optional
fraction part.  Returns the value (as numerator over a power of ten) and the
unconsumed characters. -/
def parseUnsigned (cs : List Char) : Option (Nat × Nat × List Char) :=
  let ip := cs.takeWhile isDigitChar
  let rest := cs.dropWhile isDigitChar
  match rest with
  | '.' :: rest2 =>
    let fp := rest2.takeWhile isDigitChar
    let rest3 := rest2.dropWhile isDigitChar
    if ip.isEmpty && fp.isEmpty then none
    else some (digitsToNat ip * 10 ^ fp.length + digitsToNat fp, 10 ^ fp.length, rest3)
  | _ =>
    if ip.isEmpty then none else some (digitsToNat ip, 1, rest)

/-- Parse an optional exponent suffix (`e`/`E`, optional sign, digits) and
apply it; any other leftover input makes the whole literal invalid (NaN). -/
def applyExpSuffix (numv den : Nat) (cs : List Char) : Option (Nat × Nat) :=
  match cs with
  | [] => some (numv, den)
  | c :: rest =>
    if c = 'e' || c = 'E' then
      let signedDigits : Bool × List Char :=
        match rest with
        | '+' :: r => (true, r)
        | '-' :: r => (false, r)
        | r => (true, r)
      let ed := signedDigits.2.takeWhile isDigitChar
      let leftover := signedDigits.2.dropWhile isDigitChar
      if ed.isEmpty || !leftover.isEmpty then none
      else if signedDigits.1 then some (numv * 10 ^ digitsToNat ed, den)
      else some (numv, den * 10 ^ digitsToNat ed)
    else none

/-- Parse a `NonDecimalIntegerLiteral` of the ToNumber grammar: an unsigned
`0x`/`0X`, `0o`/`0O` or `0b`/`0B` radix prefix followed by at least one
digit of that radix and nothing else. -/
def parseRadix (cs : List Char) : Option JsNum :=
  match cs with
  | '0' :: c :: rest =>
    if c = 'x' || c = 'X' then
      if !rest.isEmpty && rest.all isHexDigitChar then
        some ⟨(digitsToNatBase 16 rest : Int), 1⟩
      else none
    else if c = 'o' || c = 'O' then
      if !rest.isEmpty && rest.all isOctDigitChar then
        some ⟨(digitsToNatBase 8 rest : Int), 1⟩
      else none
    else if c = 'b' || c = 'B' then
      if !rest.isEmpty && rest.all isBinDigitChar then
        some ⟨(digitsToNatBase 2 rest : Int), 1⟩
      else none
    else none
  | _ => none

/-- Model of the JavaScript string-to-number coercion — the ECMAScript
`StringNumericLiteral` grammar behind `isNaN(id)` in the delete/update
handlers and behind the SQL comparison of the `:id` route parameter with the
integer key.  It trims ECMAScript whitespace, maps the empty string to 0,
and accepts an unsigned radix (hex/octal/binary) integer literal or an
optionally signed `Infinity` or decimal literal with optional fraction and
exponent.  `none` models NaN; the infinities are encoded with `den = 0`. -/
def jsStrToNumber (s : String) : Option JsNum :=
  match trimChars s.data with
  | [] => some ⟨0, 1⟩
  | cs =>
    match parseRadix cs with
    | some q => some q
    | none =>
      let signedBody : Bool × List Char :=
        match cs with
        | '+' :: r => (true, r)
        | '-' :: r => (false, r)
        | r => (true, r)
      if signedBody.2 = ['I', 'n', 'f', 'i', 'n', 'i', 't', 'y'] then
        some ⟨if signedBody.1 then 1 else -1, 0⟩
      else
        match parseUnsigned signedBody.2 with
        | none => none
        | some (numv, den, rest) =>
          match applyExpSuffix numv den rest with
          | none => none
          | some (numv2, den2) =>
            some ⟨if signedBody.1 then (numv2 : Int) else -(numv2 : Int), den2⟩

/-! ## Date normalization (`new Date(d).toISOString().split('T')[0]`) -/

/-- Gregorian leap-year test. -/
def isLeapYear (y : Nat) : Bool :=
  (y % 4 = 0 && y % 100 ≠ 0) || y % 400 = 0

/-- Number of days in a month of a given year. -/
def daysInMonth (y mo : Nat) : Nat :=
  if mo = 2 then (if isLeapYear y then 29 else 28)
  else if mo = 4 || mo = 6 || mo = 9 || mo = 11 then 30
  else 31

/-- Parse and validate a `YYYY-MM-DD` character sequence the way the
JavaScript `Date` constructor parses a date-only ISO string (month 01–12,
day within the month's calendar length); returns the year, month and day. -/
def plainDateChars? : List Char → Option (Nat × Nat × Nat)
  | [y1, y2, y3, y4, '-', m1, m2, '-', d1, d2] =>
    if isDigitChar y1 && isDigitChar y2 && isDigitChar y3 && isDigitChar y4 &&
        isDigitChar m1 && isDigitChar m2 && isDigitChar d1 && isDigitChar d2 &&
        1 ≤ digitVal m1 * 10 + digitVal m2 && digitVal m1 * 10 + digitVal m2 ≤ 12 &&
        1 ≤ digitVal d1 * 10 + digitVal d2 &&
        digitVal d1 * 10 + digitVal d2 ≤
          daysInMonth (digitVal y1 * 1000 + digitVal y2 * 100 + digitVal y3 * 10 + digitVal y4)
            (digitVal m1 * 10 + digitVal m2) then
      some (digitVal y1 * 1000 + digitVal y2 * 100 + digitVal y3 * 10 + digitVal y4,
            digitVal m1 * 10 + digitVal m2, digitVal d1 * 10 + digitVal d2)
    else none
  | _ => none

/-- Zero-padded two-digit decimal rendering. -/
def fmt2 (n : Nat) : List Char := [digitChar (n / 10), digitChar (n % 10)]

/-- Zero-padded four-digit decimal rendering. -/
def fmt4 (n : Nat) : List Char :=
  [digitChar (n / 1000), digitChar (n / 100 % 10), digitChar (n / 10 % 10), digitChar (n % 10)]

/-- Render a calendar date as the `YYYY-MM-DD` prefix of `toISOString`. -/
def fmtDate (y mo d : Nat) : List Char :=
  fmt4 y ++ '-' :: (fmt2 mo ++ '-' :: fmt2 d)

/-- Model of `new Date(jd).toISOString().split('T')[0]` for the date-only ISO
strings produced by the HTML date inputs of this app: a date-only string is
parsed as UTC midnight, so `toISOString` reproduces the same calendar date,
zero-padded.  `none` models the `RangeError` that `toISOString` throws on an
invalid date. -/
def normalizeJoinDate (s : String) : Option String :=
  match plainDateChars? s.data with
  | some (y, mo, d) => some (String.mk (fmtDate y mo d))
  | none => none

/-- Specification-side predicate: the string is a plain `YYYY-MM-DD` calendar
date (the format the spec says `join_date` is always normalized to). -/
def wellFormedPlainDate (s : String) : Bool :=
  (plainDateChars? s.data).isSome

/-! ## Data model: one member row, the `members` table -/

/-- One row of the `members` table (the Member entity). -/
structure Member where
  id : Nat
  name : String
  email : String
  membership_type : String
  join_date : String
  status : String
deriving DecidableEq

/-- The server-side store: the `members` table plus its auto-increment
counter for the primary key. -/
structure Store where
  members : List Member
  nextId : Nat
deriving DecidableEq

/-- Error outcomes of the route handlers.  `validation`/`notFound`/`conflict`
are the 400/404/409 JSON error responses; `crash` is the uncaught
`RangeError` thrown by `toISOString` on an invalid date, which happens
outside the handler's try/catch.  (Storage faults — the 500 responses — are
outside the model: the embedded store is always reachable.) -/
inductive ApiError where
  | validation (msg : String)
  | notFound (msg : String)
  | conflict (msg : String)
  | crash (msg : String)
deriving DecidableEq

/-- HTTP status code of each modelled error response. -/
def ApiError.httpStatus : ApiError → Nat
  | .validation _ => 400
  | .notFound _ => 404
  | .conflict _ => 409
  | .crash _ => 0

/-- Error text carried in the response's `error` field (what the client
surfaces). -/
def ApiError.message : ApiError → String
  | .validation msg => msg
  | .notFound msg => msg
  | .conflict msg => msg
  | .crash msg => msg

/-- Decide whether a handler outcome is a 400 validation error. -/
def isValidation {α : Type} : Except ApiError α → Bool
  | .error (.validation _) => true
  | _ => false

/-- Decide whether a handler outcome is a 404 not-found error. -/
def isNotFound {α : Type} : Except ApiError α → Bool
  | .error (.notFound _) => true
  | _ => false

/-- Decide whether a handler outcome is a 409 conflict error. -/
def isConflict {α : Type} : Except ApiError α → Bool
  | .error (.conflict _) => true
  | _ => false

/-! ## Ordering by name

The SQL `ORDER BY name ASC` of the list route and the client's
`sort((a, b) => a.name.localeCompare(b.name))` are both modelled as sorting
by code-point-lexicographic order on the name. -/

/-- Lexicographic order on character lists by code point. -/
def lexLe : List Char → List Char → Bool
  | [], _ => true
  | _ :: _, [] => false
  | a :: as, b :: bs =>
    if a.toNat < b.toNat then true
    else if b.toNat < a.toNat then false
    else lexLe as bs

/-- Name order on members. -/
abbrev nameLe (a b : Member) : Prop := lexLe a.name.data b.name.data = true

instance : DecidableRel nameLe := fun a b =>
  inferInstanceAs (Decidable (lexLe a.name.data b.name.data = true))

/-- Sort a member list ascending by name. -/
def sortByName (l : List Member) : List Member := l.insertionSort nameLe

/-- Sortedness by name, as delivered by `list()` and maintained by the
client cache. -/
abbrev sortedByName (l : List Member) : Prop := List.Pairwise nameLe l

/-! ## Record Store operations (the route handlers of server/server.js) -/

/-- Model of `GET /api/members`: all rows, ordered by name ascending. -/
def listMembers (s : Store) : List Member := sortByName s.members

/-- Model of `POST /api/members`.  The five body fields are strings with
`""` standing for a falsy (absent or empty) field, matching the handler's
truthiness tests.  Validates the required fields, normalizes the join date
(an invalid date crashes before the try/catch), inserts the row — which the
unique index on `email` can reject with `ER_DUP_ENTRY` → 409 — and returns
the freshly selected row. -/
def createMember (s : Store) (name email membership_type join_date status : String) :
    Except ApiError (Store × Member) :=
  if name = "" || email = "" || join_date = "" then
    .error (.validation "Name, email, and join date are required.")
  else
    match normalizeJoinDate join_date with
    | none => .error (.crash "RangeError: Invalid time value")
    | some formattedJoinDate =>
      if s.members.any (fun m => m.email = email) then
        .error (.conflict "Email already exists.")
      else
        let newMember : Member :=
          { id := s.nextId
            name := name
            email := email
            membership_type := if membership_type = "" then "Basic" else membership_type
            join_date := formattedJoinDate
            status := if status = "" then "Active" else status }
        .ok ({ members := s.members ++ [newMember], nextId := s.nextId + 1 }, newMember)

/-- Route wrapper for `POST /api/members`: destructures the JSON body, where
an absent key is `none`; all subsequent uses are by truthiness, under which
`none` and `some ""` coincide. -/
def postMember (s : Store) (name email membership_type join_date status : Option String) :
    Except ApiError (Store × Member) :=
  createMember s (name.getD "") (email.getD "") (membership_type.getD "")
    (join_date.getD "") (status.getD "")

/-- Model of `DELETE /api/members/:id`: rejects a non-numeric id string
(`isNaN(id)`), then deletes the rows whose integer key equals the coerced
id value; zero affected rows is reported as 404. -/
def deleteMember (s : Store) (idStr : String) : Except ApiError Store :=
  match jsStrToNumber idStr with
  | none => .error (.validation "Invalid member ID.")
  | some q =>
    let remaining := s.members.filter (fun m => !q.eqNat m.id)
    if remaining.length = s.members.length then
      .error (.notFound "Member not found.")
    else
      .ok { s with members := remaining }

/-- Apply the dynamically built `UPDATE ... SET` clause: each field is
included exactly when its body value is truthy; `fjd` is the already
normalized join date (`""` when the field was absent). -/
def applyPatch (m : Member) (name email membership_type fjd status : String) : Member :=
  { m with
    name := if name = "" then m.name else name
    email := if email = "" then m.email else email
    membership_type := if membership_type = "" then m.membership_type else membership_type
    join_date := if fjd = "" then m.join_date else fjd
    status := if status = "" then m.status else status }

/-- Model of `PUT /api/members/:id`: rejects a non-numeric id string, then an
all-falsy body; normalizes a supplied join date (an invalid one crashes
outside the try/catch); runs the dynamically built UPDATE, where a missing
row is 404 (the connection is opened with the FOUND_ROWS flag, so
`affectedRows` counts matched rows) and a duplicate email raises
`ER_DUP_ENTRY` → 409; finally re-selects and returns the updated row. -/
def updateMember (s : Store) (idStr name email membership_type join_date status : String) :
    Except ApiError (Store × Member) :=
  match jsStrToNumber idStr with
  | none => .error (.validation "Invalid member ID.")
  | some q =>
    if name = "" && email = "" && membership_type = "" && join_date = "" && status = "" then
      .error (.validation "No update data provided.")
    else
      match (if join_date = "" then some "" else normalizeJoinDate join_date) with
      | none => .error (.crash "RangeError: Invalid time value")
      | some fjd =>
        match s.members.find? (fun m => q.eqNat m.id) with
        | none => .error (.notFound "Member not found or no changes made.")
        | some m =>
          let updated := applyPatch m name email membership_type fjd status
          if email ≠ "" && s.members.any (fun o => o.id ≠ m.id && o.email = email) then
            .error (.conflict "Email already exists for another member.")
          else
            .ok ({ s with
                    members := s.members.map (fun o => if o.id = m.id then updated else o) },
                 updated)

/-- Route wrapper for `PUT /api/members/:id`: destructures the JSON body
(absent key = `none`); every use is by truthiness, under which `none` and
`some ""` coincide. -/
def putMember (s : Store) (idStr : String)
    (name email membership_type join_date status : Option String) :
    Except ApiError (Store × Member) :=
  updateMember s idStr (name.getD "") (email.getD "") (membership_type.getD "")
    (join_date.getD "") (status.getD "")

/-- Table state after a handler ran: the new store on success, the untouched
store on any error response (the failed statement mutates nothing). -/
def storeAfter {α : Type} (s : Store) (r : Except ApiError (Store × α)) : Store :=
  match r with
  | .ok (s2, _) => s2
  | .error _ => s

/-! ## View Reconciler (client/src/App.js) -/

/-- Client-side state: the cached member sequence, the editing target of the
form (empty = Add-mode), and the error-message slot. -/
structure ClientState where
  members : List Member
  editingMember : Option Member
  errorMsg : Option String
deriving DecidableEq

/-- Cache mutation of `handleMemberAdded`: append the record the store
returned and re-sort by name. -/
def handleMemberAdded (cache : List Member) (newMember : Member) : List Member :=
  sortByName (cache ++ [newMember])

/-- Cache mutation of `handleUpdateComplete`: replace the matching record by
id and re-sort by name. -/
def handleUpdateComplete (cache : List Member) (updatedMember : Member) : List Member :=
  sortByName (cache.map (fun m => if m.id = updatedMember.id then updatedMember else m))

/-- Cache mutation inside `handleDeleteMember`: drop the record by id. -/
def removeMemberById (cache : List Member) (id : Nat) : List Member :=
  cache.filter (fun m => m.id ≠ id)

/-- Model of the form's `handleSubmit` in Add-mode: client-side required-field
check, then `POST /api/members`; on success the returned record is inserted
into the cache (re-sorted) and the form resets; on failure the store's error
message is surfaced and the cache is untouched. -/
def handleSubmitAdd (c : ClientState) (st : Store)
    (name email membershipType joinDate status : String) : ClientState × Store :=
  if name = "" || email = "" || joinDate = "" then
    ({ c with errorMsg := some "Name, Email, and Join Date are required." }, st)
  else
    match createMember st name email membershipType joinDate status with
    | .ok (st2, m) =>
      ({ members := handleMemberAdded c.members m
         editingMember := none
         errorMsg := none }, st2)
    | .error e => ({ c with errorMsg := some (ApiError.message e) }, st)

/-- Model of the form's `handleSubmit` in Edit-mode (editing target `em`):
client-side required-field check, then `PUT /api/members/:id` with the full
form field set; on success the cache entry is replaced by id (re-sorted) and
the editing target cleared; on failure the store's error message is surfaced
and the cache is untouched. -/
def handleSubmitEdit (c : ClientState) (st : Store) (em : Member)
    (name email membershipType joinDate status : String) : ClientState × Store :=
  if name = "" || email = "" || joinDate = "" then
    ({ c with errorMsg := some "Name, Email, and Join Date are required." }, st)
  else
    match updateMember st (toString em.id) name email membershipType joinDate status with
    | .ok (st2, u) =>
      ({ members := handleUpdateComplete c.members u
         editingMember := none
         errorMsg := none }, st2)
    | .error e => ({ c with errorMsg := some (ApiError.message e) }, st)

/-- Model of `handleDeleteMember` after the user confirmed the dialog:
`DELETE /api/members/:id`; on success the record is dropped from the cache by
id and, if it was the editing target, the editing target is cleared; on
failure the error is surfaced and the cache is untouched. -/
def handleDeleteMember (c : ClientState) (st : Store) (id : Nat) : ClientState × Store :=
  match deleteMember st (toString id) with
  | .ok st2 =>
    ({ members := removeMemberById c.members id
       editingMember :=
         match c.editingMember with
         | some em => if em.id = id then none else some em
         | none => none
       errorMsg := c.errorMsg }, st2)
  | .error e =>
    ({ c with errorMsg := some ("Error deleting member: " ++ ApiError.message e) }, st)

/-- Model of `fetchMembers` (Refresh): replace the cache wholesale with the
store's list. -/
def fetchMembers (c : ClientState) (st : Store) : ClientState :=
  { c with members := listMembers st, errorMsg := none }

/-! ## Sample data for concrete witnesses -/

/-- Sample stored member. -/
def eve : Member := ⟨5, "Eve", "eve@x.com", "Basic", "2024-01-01", "Active"⟩

/-- Sample store holding only `eve`. -/
def storeEve : Store := ⟨[eve], 6⟩

/-- Sample member named Bob. -/
def bobSample : Member := ⟨1, "Bob", "bob@x.com", "Basic", "2024-01-01", "Active"⟩

/-- Sample member named Ann. -/
def annSample : Member := ⟨2, "Ann", "ann@x.com", "Basic", "2024-01-01", "Active"⟩

/-- Sample store holding `eve` and a second member. -/
def storeTwo : Store := ⟨[eve, ⟨7, "Bob", "bob7@x.com", "Basic", "2024-01-01", "Active"⟩], 8⟩

/-! ## Helper lemmas -/

/-- Totality of the code-point-lexicographic order. -/
theorem lexLe_total (as bs : List Char) : lexLe as bs = true ∨ lexLe bs as = true := by
  induction as generalizing bs with
  | nil => left; rfl
  | cons a as ih =>
    cases bs with
    | nil => right; rfl
    | cons b bs =>
      simp only [lexLe]
      rcases Nat.lt_trichotomy a.toNat b.toNat with h | h | h
      · left; simp [h]
      · simp [h, Nat.lt_irrefl]
        exact ih bs
      · right; simp [h, Nat.lt_asymm h]

/-- Transitivity of the code-point-lexicographic order. -/
theorem lexLe_trans (as bs cs : List Char) (h1 : lexLe as bs = true)
    (h2 : lexLe bs cs = true) : lexLe as cs = true := by
  induction as generalizing bs cs with
  | nil => rfl
  | cons a as ih =>
    cases bs with
    | nil => simp [lexLe] at h1
    | cons b bs =>
      cases cs with
      | nil => simp [lexLe] at h2
      | cons c cs =>
        simp only [lexLe] at h1 h2 ⊢
        split_ifs at h1 h2 ⊢ <;>
          first
            | rfl
            | omega
            | (exact ih bs cs h1 h2)

instance : IsTotal Member nameLe :=
  ⟨fun a b => lexLe_total a.name.data b.name.data⟩

instance : IsTrans Member nameLe :=
  ⟨fun a b c => lexLe_trans a.name.data b.name.data c.name.data⟩

/-- Sorting by name yields a name-sorted list. -/
theorem sortedByName_sortByName (l : List Member) : sortedByName (sortByName l) :=
  List.sorted_insertionSort nameLe l

/-- Sorting by name neither adds nor removes members. -/
theorem mem_sortByName {x : Member} {l : List Member} : x ∈ sortByName l ↔ x ∈ l :=
  List.mem_insertionSort nameLe

/-- Filtering preserves name-sortedness. -/
theorem sortedByName_filter (l : List Member) (p : Member → Bool)
    (h : sortedByName l) : sortedByName (l.filter p) :=
  h.sublist (List.filter_sublist l)

/-- Digit characters have digit values below ten. -/
theorem digitVal_lt (c : Char) (h : isDigitChar c = true) : digitVal c < 10 := by
  simp only [isDigitChar, Bool.and_eq_true, decide_eq_true_eq] at h
  simp only [digitVal]
  omega

/-- Rendering the value of a digit character gives back the character. -/
theorem digitChar_digitVal (c : Char) (h : isDigitChar c = true) :
    digitChar (digitVal c) = c := by
  simp only [isDigitChar, Bool.and_eq_true, decide_eq_true_eq] at h
  have hv : 48 + digitVal c = c.toNat := by simp only [digitVal]; omega
  rw [digitChar, hv, Char.ofNat_toNat]

/-- Formatting the parse of a well-formed plain date reproduces its text. -/
theorem fmtDate_plainDateChars (l : List Char) (y mo d : Nat)
    (h : plainDateChars? l = some (y, mo, d)) : fmtDate y mo d = l := by
  unfold plainDateChars? at h
  split at h
  case h_2 => exact absurd h (by simp)
  case h_1 y1 y2 y3 y4 m1 m2 d1 d2 =>
    split_ifs at h with hdig
    simp only [Option.some.injEq, Prod.mk.injEq] at h
    obtain ⟨hy, hmo, hd⟩ := h
    simp only [Bool.and_eq_true, decide_eq_true_eq] at hdig
    obtain ⟨⟨⟨⟨⟨⟨⟨⟨⟨⟨⟨q1, q2⟩, q3⟩, q4⟩, q5⟩, q6⟩, q7⟩, q8⟩, r1⟩, r2⟩, r3⟩, r4⟩ := hdig
    have b1 := digitVal_lt y1 q1
    have b2 := digitVal_lt y2 q2
    have b3 := digitVal_lt y3 q3
    have b4 := digitVal_lt y4 q4
    have b5 := digitVal_lt m1 q5
    have b6 := digitVal_lt m2 q6
    have b7 := digitVal_lt d1 q7
    have b8 := digitVal_lt d2 q8
    subst hy hmo hd
    simp only [fmtDate, fmt4, fmt2, List.cons_append, List.nil_append, List.cons.injEq,
      and_true]
    refine ⟨?_, ?_, ?_, ?_, trivial, ?_, ?_, trivial, ?_, ?_⟩
    · rw [show (digitVal y1 * 1000 + digitVal y2 * 100 + digitVal y3 * 10 + digitVal y4)
          / 1000 = digitVal y1 by omega]
      exact digitChar_digitVal y1 q1
    · rw [show (digitVal y1 * 1000 + digitVal y2 * 100 + digitVal y3 * 10 + digitVal y4)
          / 100 % 10 = digitVal y2 by omega]
      exact digitChar_digitVal y2 q2
    · rw [show (digitVal y1 * 1000 + digitVal y2 * 100 + digitVal y3 * 10 + digitVal y4)
          / 10 % 10 = digitVal y3 by omega]
      exact digitChar_digitVal y3 q3
    · rw [show (digitVal y1 * 1000 + digitVal y2 * 100 + digitVal y3 * 10 + digitVal y4)
          % 10 = digitVal y4 by omega]
      exact digitChar_digitVal y4 q4
    · rw [show (digitVal m1 * 10 + digitVal m2) / 10 = digitVal m1 by omega]
      exact digitChar_digitVal m1 q5
    · rw [show (digitVal m1 * 10 + digitVal m2) % 10 = digitVal m2 by omega]
      exact digitChar_digitVal m2 q6
    · rw [show (digitVal d1 * 10 + digitVal d2) / 10 = digitVal d1 by omega]
      exact digitChar_digitVal d1 q7
    · rw [show (digitVal d1 * 10 + digitVal d2) % 10 = digitVal d2 by omega]
      exact digitChar_digitVal d2 q8

/-- Normalization is the identity on well-formed plain calendar dates. -/
theorem normalizeJoinDate_of_wellFormed (s : String) (h : wellFormedPlainDate s = true) :
    normalizeJoinDate s = some s := by
  simp only [wellFormedPlainDate, Option.isSome_iff_exists] at h
  obtain ⟨⟨y, mo, d⟩, hp⟩ := h
  simp only [normalizeJoinDate, hp]
  rw [fmtDate_plainDateChars s.data y mo d hp]

/-- Normalization never returns the empty string. -/
theorem normalizeJoinDate_ne_empty (s t : String) (h : normalizeJoinDate s = some t) :
    t ≠ "" := by
  unfold normalizeJoinDate at h
  split at h
  · simp only [Option.some.injEq] at h
    subst h
    simp [fmtDate, fmt4, String.ext_iff]
  · exact absurd h (by simp)

/-- Normalization rejects the empty string (no date to parse). -/
theorem normalizeJoinDate_empty : normalizeJoinDate "" = none := rfl

/-- Presence-or-absence of the join date field yields a normalized value
whenever the supplied date (if any) is parseable. -/
theorem joinDateField_some (join_date : String)
    (hjd : join_date = "" ∨ (normalizeJoinDate join_date).isSome = true) :
    ∃ fjd, (if join_date = "" then some "" else normalizeJoinDate join_date) = some fjd := by
  by_cases hje : join_date = ""
  · exact ⟨"", by simp [hje]⟩
  · rcases hjd with h0 | h0
    · exact absurd h0 hje
    · rcases Option.isSome_iff_exists.mp h0 with ⟨fjd, hf⟩
      exact ⟨fjd, by simp [hje, hf]⟩

/-- Inversion of a successful `PUT /api/members/:id`: the id string parses,
its value matches a stored record, the supplied join date normalizes, the
returned record is the stored one with the patch applied, and the new table
replaces exactly that record. -/
theorem updateMember_ok_inv (s : Store)
    (idStr name email membership_type join_date status : String) (s2 : Store) (u : Member)
    (h : updateMember s idStr name email membership_type join_date status = .ok (s2, u)) :
    ∃ q m fjd, jsStrToNumber idStr = some q ∧
      s.members.find? (fun x => q.eqNat x.id) = some m ∧
      (if join_date = "" then some "" else normalizeJoinDate join_date) = some fjd ∧
      u = applyPatch m name email membership_type fjd status ∧
      s2.members = s.members.map (fun o => if o.id = m.id then u else o) ∧
      s2.nextId = s.nextId := by
  cases hq : jsStrToNumber idStr with
  | none => simp [updateMember, hq] at h
  | some q =>
    cases hjd : (if join_date = "" then some "" else normalizeJoinDate join_date) with
    | none =>
      simp only [updateMember, hq, hjd] at h
      split_ifs at h
    | some fjd =>
      cases hfind : s.members.find? (fun x => q.eqNat x.id) with
      | none =>
        simp only [updateMember, hq, hjd, hfind] at h
        split_ifs at h
      | some m =>
        simp only [updateMember, hq, hjd, hfind] at h
        split_ifs at h
        simp only [reduceCtorEq, Except.ok.injEq, Prod.mk.injEq] at h
        obtain ⟨hs, hu⟩ := h
        exact ⟨q, m, fjd, rfl, hfind, rfl, hu.symm, by rw [← hs, ← hu], by rw [← hs]⟩

/-! ## Claim theorems -/

/-- C1: every successful `update(id, patch)` call rewrites exactly the
supplied (truthy) fields of the record whose key matches the id — name,
email, membership type and status verbatim, the join date in normalized
form — leaves every unsupplied field at its previous value and every other
record untouched, and returns the full updated record (which is what the
new table stores at that id). -/
theorem C1_update_frame_effect (s : Store)
    (idStr name email membership_type join_date status : String) (s2 : Store) (u : Member)
    (h : updateMember s idStr name email membership_type join_date status = .ok (s2, u)) :
    ∃ q m, jsStrToNumber idStr = some q ∧ m ∈ s.members ∧ q.eqNat m.id = true ∧
      u.id = m.id ∧
      (name = "" → u.name = m.name) ∧ (name ≠ "" → u.name = name) ∧
      (email = "" → u.email = m.email) ∧ (email ≠ "" → u.email = email) ∧
      (membership_type = "" → u.membership_type = m.membership_type) ∧
      (membership_type ≠ "" → u.membership_type = membership_type) ∧
      (join_date = "" → u.join_date = m.join_date) ∧
      (join_date ≠ "" → normalizeJoinDate join_date = some u.join_date) ∧
      (status = "" → u.status = m.status) ∧ (status ≠ "" → u.status = status) ∧
      s2.members = s.members.map (fun o => if o.id = m.id then u else o) ∧
      s2.nextId = s.nextId := by
  obtain ⟨q, m, fjd, hq, hfind, hjd, hu, hs, hn⟩ :=
    updateMember_ok_inv s idStr name email membership_type join_date status s2 u h
  refine ⟨q, m, hq, List.mem_of_find?_eq_some hfind, by simpa using List.find?_some hfind,
    ?_, ?_, ?_, ?_, ?_, ?_, ?_, ?_, ?_, ?_, ?_, hs, hn⟩
  · simp [hu, applyPatch]
  · intro h0; simp [hu, applyPatch, h0]
  · intro h0; simp [hu, applyPatch, h0]
  · intro h0; simp [hu, applyPatch, h0]
  · intro h0; simp [hu, applyPatch, h0]
  · intro h0; simp [hu, applyPatch, h0]
  · intro h0; simp [hu, applyPatch, h0]
  · intro h0
    rw [if_pos h0, Option.some.injEq] at hjd
    simp [hu, applyPatch, ← hjd]
  · intro h0
    rw [if_neg h0] at hjd
    have hfne := normalizeJoinDate_ne_empty join_date fjd hjd
    rw [hjd, Option.some.injEq]
    simp [hu, applyPatch, hfne]
  · intro h0; simp [hu, applyPatch, h0]
  · intro h0; simp [hu, applyPatch, h0]

/-- C1 witness: updating the sample store's member 5 with only a status
patch succeeds and exhibits the frame property concretely. -/
theorem C1_update_frame_effect_witness :
    ∃ q m, jsStrToNumber "5" = some q ∧ m ∈ storeEve.members ∧ q.eqNat m.id = true ∧
      (⟨5, "Eve", "eve@x.com", "Basic", "2024-01-01", "Expired"⟩ : Member).id = m.id ∧
      ("" = "" → (⟨5, "Eve", "eve@x.com", "Basic", "2024-01-01", "Expired"⟩ : Member).name
        = m.name) ∧
      ("" ≠ "" → (⟨5, "Eve", "eve@x.com", "Basic", "2024-01-01", "Expired"⟩ : Member).name
        = "") ∧
      ("" = "" → (⟨5, "Eve", "eve@x.com", "Basic", "2024-01-01", "Expired"⟩ : Member).email
        = m.email) ∧
      ("" ≠ "" → (⟨5, "Eve", "eve@x.com", "Basic", "2024-01-01", "Expired"⟩ : Member).email
        = "") ∧
      ("" = "" →
        (⟨5, "Eve", "eve@x.com", "Basic", "2024-01-01", "Expired"⟩ : Member).membership_type
        = m.membership_type) ∧
      ("" ≠ "" →
        (⟨5, "Eve", "eve@x.com", "Basic", "2024-01-01", "Expired"⟩ : Member).membership_type
        = "") ∧
      ("" = "" → (⟨5, "Eve", "eve@x.com", "Basic", "2024-01-01", "Expired"⟩ : Member).join_date
        = m.join_date) ∧
      ("" ≠ "" → normalizeJoinDate "" =
        some (⟨5, "Eve", "eve@x.com", "Basic", "2024-01-01", "Expired"⟩ : Member).join_date) ∧
      ("Expired" = "" →
        (⟨5, "Eve", "eve@x.com", "Basic", "2024-01-01", "Expired"⟩ : Member).status
        = m.status) ∧
      ("Expired" ≠ "" →
        (⟨5, "Eve", "eve@x.com", "Basic", "2024-01-01", "Expired"⟩ : Member).status
        = "Expired") ∧
      (⟨[⟨5, "Eve", "eve@x.com", "Basic", "2024-01-01", "Expired"⟩], 6⟩ : Store).members =
        storeEve.members.map (fun o =>
          if o.id = m.id then ⟨5, "Eve", "eve@x.com", "Basic", "2024-01-01", "Expired"⟩
          else o) ∧
      (⟨[⟨5, "Eve", "eve@x.com", "Basic", "2024-01-01", "Expired"⟩], 6⟩ : Store).nextId =
        storeEve.nextId :=
  C1_update_frame_effect storeEve "5" "" "" "" "" "Expired"
    ⟨[⟨5, "Eve", "eve@x.com", "Basic", "2024-01-01", "Expired"⟩], 6⟩
    ⟨5, "Eve", "eve@x.com", "Basic", "2024-01-01", "Expired"⟩ rfl

/-- C2: with a numeric id string, a non-empty patch and a parseable (or
absent) join date, `update` reports not-found exactly when no stored
record's key matches the coerced id — in particular, an update aimed at an
existing record never reports not-found. -/
theorem C2_update_notFound_iff (s : Store)
    (idStr name email membership_type join_date status : String) (q : JsNum)
    (hq : jsStrToNumber idStr = some q)
    (hne : (name = "" && email = "" && membership_type = "" && join_date = ""
        && status = "") = false)
    (hjd : join_date = "" ∨ (normalizeJoinDate join_date).isSome = true) :
    isNotFound (updateMember s idStr name email membership_type join_date status) = true ↔
      ∀ m ∈ s.members, q.eqNat m.id = false := by
  obtain ⟨fjd, hfjd⟩ := joinDateField_some join_date hjd
  cases hfind : s.members.find? (fun x => q.eqNat x.id) with
  | none =>
    have hres : updateMember s idStr name email membership_type join_date status =
        .error (.notFound "Member not found or no changes made.") := by
      simp [updateMember, hq, hne, hfjd, hfind]
    rw [hres]
    constructor
    · intro _ m hm
      simpa using List.find?_eq_none.mp hfind m hm
    · intro _
      rfl
  | some m =>
    have hmem := List.mem_of_find?_eq_some hfind
    have heq : q.eqNat m.id = true := by simpa using List.find?_some hfind
    have hres : isNotFound
        (updateMember s idStr name email membership_type join_date status) = false := by
      simp only [updateMember, hq, hfjd, hfind, hne, Bool.false_eq_true, if_false]
      split_ifs <;> rfl
    rw [hres]
    simp only [Bool.false_eq_true, false_iff, not_forall]
    refine ⟨m, hmem, ?_⟩
    simp [heq]

/-- C2 witness: a status-only update addressed to the sample store's
existing member 5 instantiates the not-found characterization. -/
theorem C2_update_notFound_iff_witness :
    isNotFound (updateMember storeEve "5" "" "" "" "" "Expired") = true ↔
      ∀ m ∈ storeEve.members, JsNum.eqNat ⟨5, 1⟩ m.id = false :=
  C2_update_notFound_iff storeEve "5" "" "" "" "" "Expired" ⟨5, 1⟩ rfl rfl (Or.inl rfl)

/-- C3: create normalizes a plain `YYYY-MM-DD` join date to exactly itself,
and the created member read back from the listing carries that very date —
no timezone drift. -/
theorem C3_join_date_round_trip (s : Store) (name email membership_type jd status : String)
    (hn : name ≠ "") (he : email ≠ "") (hjd : wellFormedPlainDate jd = true)
    (hfresh : s.members.any (fun m => m.email = email) = false) :
    normalizeJoinDate jd = some jd ∧
    ∃ s2 m, createMember s name email membership_type jd status = .ok (s2, m) ∧
      m.join_date = jd ∧ m ∈ listMembers s2 := by
  have hnorm := normalizeJoinDate_of_wellFormed jd hjd
  have hjdne : jd ≠ "" := by
    intro h0
    rw [h0, normalizeJoinDate_empty] at hnorm
    exact absurd hnorm (by simp)
  have hres : createMember s name email membership_type jd status =
      .ok ({ members := s.members ++
              [⟨s.nextId, name, email,
                (if membership_type = "" then "Basic" else membership_type), jd,
                (if status = "" then "Active" else status)⟩],
             nextId := s.nextId + 1 },
           ⟨s.nextId, name, email,
            (if membership_type = "" then "Basic" else membership_type), jd,
            (if status = "" then "Active" else status)⟩) := by
    simp [createMember, hn, he, hjdne, hnorm, hfresh]
  exact ⟨hnorm, _, _, hres, rfl, mem_sortByName.mpr (by simp)⟩

/-- C3 witness: creating Ann with join date 2024-03-15 in the sample store
round-trips the date exactly. -/
theorem C3_join_date_round_trip_witness :
    normalizeJoinDate "2024-03-15" = some "2024-03-15" ∧
    ∃ s2 m, createMember storeEve "Ann" "ann@x.com" "" "2024-03-15" "" = .ok (s2, m) ∧
      m.join_date = "2024-03-15" ∧ m ∈ listMembers s2 :=
  C3_join_date_round_trip storeEve "Ann" "ann@x.com" "" "2024-03-15" ""
    (by decide) (by decide) rfl rfl

/-- C4: a create whose email is already stored fails with the 409 conflict
and leaves the member count unchanged, and an update that sets a member's
email to another existing member's email fails with the same conflict
condition, also leaving the count unchanged. -/
theorem C4_duplicate_email_conflict :
    (∀ (s : Store) (name email membership_type join_date status fjd : String),
      name ≠ "" → email ≠ "" → join_date ≠ "" → normalizeJoinDate join_date = some fjd →
      (∃ m ∈ s.members, m.email = email) →
      createMember s name email membership_type join_date status =
        .error (.conflict "Email already exists.") ∧
      (storeAfter s
        (createMember s name email membership_type join_date status)).members.length =
        s.members.length) ∧
    (∀ (s : Store) (idStr name email membership_type join_date status : String)
        (q : JsNum) (m o : Member),
      jsStrToNumber idStr = some q →
      s.members.find? (fun x => q.eqNat x.id) = some m →
      email ≠ "" →
      (join_date = "" ∨ (normalizeJoinDate join_date).isSome = true) →
      o ∈ s.members → o.id ≠ m.id → o.email = email →
      updateMember s idStr name email membership_type join_date status =
        .error (.conflict "Email already exists for another member.") ∧
      (storeAfter s
        (updateMember s idStr name email membership_type join_date status)).members.length =
        s.members.length) := by
  constructor
  · intro s name email membership_type join_date status fjd hn he hjdne hnorm hdup
    obtain ⟨m, hm, hme⟩ := hdup
    have hany : s.members.any (fun x => x.email = email) = true :=
      List.any_eq_true.mpr ⟨m, hm, by simp [hme]⟩
    have hres : createMember s name email membership_type join_date status =
        .error (.conflict "Email already exists.") := by
      simp [createMember, hn, he, hjdne, hnorm, hany]
    exact ⟨hres, by simp [hres, storeAfter]⟩
  · intro s idStr name email membership_type join_date status q m o hq hfind he hjd hom hoid hoe
    obtain ⟨fjd, hfjd⟩ := joinDateField_some join_date hjd
    have hex : ∃ x ∈ s.members, ¬x.id = m.id ∧ x.email = email := ⟨o, hom, hoid, hoe⟩
    have hres : updateMember s idStr name email membership_type join_date status =
        .error (.conflict "Email already exists for another member.") := by
      simp [updateMember, hq, hfjd, hfind, he, hex]
    exact ⟨hres, by simp [hres, storeAfter]⟩

/-- C4 witness: duplicating eve's email on a create, and updating member 7
of the two-member store to eve's email, both yield the conflict condition
with the count unchanged. -/
theorem C4_duplicate_email_conflict_witness :
    (createMember storeEve "Ann" "eve@x.com" "" "2024-01-01" "" =
        .error (.conflict "Email already exists.") ∧
      (storeAfter storeEve
        (createMember storeEve "Ann" "eve@x.com" "" "2024-01-01" "")).members.length =
        storeEve.members.length) ∧
    (updateMember storeTwo "7" "" "eve@x.com" "" "" "" =
        .error (.conflict "Email already exists for another member.") ∧
      (storeAfter storeTwo
        (updateMember storeTwo "7" "" "eve@x.com" "" "" "")).members.length =
        storeTwo.members.length) :=
  ⟨C4_duplicate_email_conflict.1 storeEve "Ann" "eve@x.com" "" "2024-01-01" "" "2024-01-01"
      (by decide) (by decide) (by decide) rfl ⟨eve, by simp [storeEve], rfl⟩,
    C4_duplicate_email_conflict.2 storeTwo "7" "" "eve@x.com" "" "" "" ⟨7, 1⟩
      ⟨7, "Bob", "bob7@x.com", "Basic", "2024-01-01", "Active"⟩ eve rfl rfl (by decide)
      (Or.inl rfl) (by simp [storeTwo, eve]) (by decide) rfl⟩

/-- C5: a create request with non-empty name, email and join date and the
other fields omitted succeeds, persists the member with membership type
defaulted to Basic and status defaulted to Active, appends it as a new row,
and returns that fully populated record with the store-assigned id. -/
theorem C5_create_defaults (s : Store) (name email jd fjd : String)
    (hn : name ≠ "") (he : email ≠ "") (hjd : normalizeJoinDate jd = some fjd)
    (hfresh : s.members.any (fun m => m.email = email) = false) :
    postMember s (some name) (some email) none (some jd) none =
      .ok ({ members := s.members ++ [⟨s.nextId, name, email, "Basic", fjd, "Active"⟩],
             nextId := s.nextId + 1 },
           ⟨s.nextId, name, email, "Basic", fjd, "Active"⟩) := by
  have hjdne : jd ≠ "" := by
    intro h0
    rw [h0, normalizeJoinDate_empty] at hjd
    exact absurd hjd (by simp)
  simp [postMember, createMember, hn, he, hjdne, hjd, hfresh]

/-- C5 witness: creating Ann with only the required fields in the sample
store yields the 201 record with the Basic/Active defaults and id 6. -/
theorem C5_create_defaults_witness :
    postMember storeEve (some "Ann") (some "ann@x.com") none (some "2024-01-01") none =
      .ok ({ members := storeEve.members ++
              [⟨storeEve.nextId, "Ann", "ann@x.com", "Basic", "2024-01-01", "Active"⟩],
             nextId := storeEve.nextId + 1 },
           ⟨storeEve.nextId, "Ann", "ann@x.com", "Basic", "2024-01-01", "Active"⟩) :=
  C5_create_defaults storeEve "Ann" "ann@x.com" "2024-01-01" "2024-01-01"
    (by decide) (by decide) rfl rfl

/-- C6: an update field supplied with a falsy-but-valid value (the empty
string) behaves exactly like an absent field — it is not persisted, so it
cannot clear the stored value — and an update whose every supplied value is
falsy fails with a 400 validation error. -/
theorem C6_falsy_update_fields (s : Store) (idStr : String) :
    (∀ name email membership_type join_date status : Option String,
      putMember s idStr (some "") email membership_type join_date status =
        putMember s idStr none email membership_type join_date status ∧
      putMember s idStr name (some "") membership_type join_date status =
        putMember s idStr name none membership_type join_date status ∧
      putMember s idStr name email (some "") join_date status =
        putMember s idStr name email none join_date status ∧
      putMember s idStr name email membership_type (some "") status =
        putMember s idStr name email membership_type none status ∧
      putMember s idStr name email membership_type join_date (some "") =
        putMember s idStr name email membership_type join_date none) ∧
    (∀ name email membership_type join_date status : Option String,
      name.getD "" = "" → email.getD "" = "" → membership_type.getD "" = "" →
      join_date.getD "" = "" → status.getD "" = "" →
      isValidation (putMember s idStr name email membership_type join_date status) = true) ∧
    (∀ (name membership_type join_date status : Option String) (s2 : Store) (u : Member),
      putMember s idStr name (some "") membership_type join_date status = .ok (s2, u) →
      ∃ m ∈ s.members, u.id = m.id ∧ u.email = m.email) := by
  refine ⟨?_, ?_, ?_⟩
  · intro name email membership_type join_date status
    exact ⟨rfl, rfl, rfl, rfl, rfl⟩
  · intro name email membership_type join_date status hn he hmt hjd hst
    have hz : putMember s idStr name email membership_type join_date status =
        updateMember s idStr "" "" "" "" "" := by
      rw [putMember, hn, he, hmt, hjd, hst]
    rw [hz]
    cases hq : jsStrToNumber idStr <;> simp [updateMember, hq, isValidation]
  · intro name membership_type join_date status s2 u h
    have h2 : updateMember s idStr (name.getD "") "" (membership_type.getD "")
        (join_date.getD "") (status.getD "") = .ok (s2, u) := h
    obtain ⟨q, m, fjd, hq, hfind, hfjd, hu, hs, hn2⟩ :=
      updateMember_ok_inv s idStr (name.getD "") "" (membership_type.getD "")
        (join_date.getD "") (status.getD "") s2 u h2
    exact ⟨m, List.mem_of_find?_eq_some hfind, by simp [hu, applyPatch],
      by simp [hu, applyPatch]⟩

/-- C6 witness: on the sample store, an empty-string email field in a patch
acts like an absent one, an all-falsy patch is a validation error, and a
successful name-only update with a falsy email keeps the stored email. -/
theorem C6_falsy_update_fields_witness :
    (putMember storeEve "5" (some "Zoe") (some "") none none none =
        putMember storeEve "5" (some "Zoe") none none none none) ∧
    isValidation (putMember storeEve "5" (some "") none none none (some "")) = true ∧
    ∃ m ∈ storeEve.members,
      (⟨5, "Zoe", "eve@x.com", "Basic", "2024-01-01", "Active"⟩ : Member).id = m.id ∧
      (⟨5, "Zoe", "eve@x.com", "Basic", "2024-01-01", "Active"⟩ : Member).email = m.email :=
  ⟨((C6_falsy_update_fields storeEve "5").1 (some "Zoe") (some "") none none none).2.1,
    (C6_falsy_update_fields storeEve "5").2.1 (some "") none none none (some "")
      rfl rfl rfl rfl rfl,
    (C6_falsy_update_fields storeEve "5").2.2 (some "Zoe") none none none
      ⟨[⟨5, "Zoe", "eve@x.com", "Basic", "2024-01-01", "Active"⟩], 6⟩
      ⟨5, "Zoe", "eve@x.com", "Basic", "2024-01-01", "Active"⟩ rfl⟩

/-- C7: when the Record Store rejects an add, edit or delete, the View
Reconciler's cached member sequence is identical before and after the call —
no partial or optimistic mutation — and the store's error message is
surfaced, with the store itself untouched. -/
theorem C7_no_cache_mutation_on_failure (c : ClientState) (st : Store)
    (name email membershipType joinDate status : String) (em : Member) (id : Nat)
    (e : ApiError) :
    (name ≠ "" → email ≠ "" → joinDate ≠ "" →
      createMember st name email membershipType joinDate status = .error e →
      (handleSubmitAdd c st name email membershipType joinDate status).1.members =
        c.members ∧
      (handleSubmitAdd c st name email membershipType joinDate status).1.errorMsg =
        some (ApiError.message e) ∧
      (handleSubmitAdd c st name email membershipType joinDate status).2 = st) ∧
    (name ≠ "" → email ≠ "" → joinDate ≠ "" →
      updateMember st (toString em.id) name email membershipType joinDate status =
        .error e →
      (handleSubmitEdit c st em name email membershipType joinDate status).1.members =
        c.members ∧
      (handleSubmitEdit c st em name email membershipType joinDate status).1.errorMsg =
        some (ApiError.message e) ∧
      (handleSubmitEdit c st em name email membershipType joinDate status).2 = st) ∧
    (deleteMember st (toString id) = .error e →
      (handleDeleteMember c st id).1.members = c.members ∧
      (handleDeleteMember c st id).1.errorMsg =
        some ("Error deleting member: " ++ ApiError.message e) ∧
      (handleDeleteMember c st id).2 = st) := by
  refine ⟨?_, ?_, ?_⟩
  · intro hn he hjd hres
    simp [handleSubmitAdd, hn, he, hjd, hres]
  · intro hn he hjd hres
    simp [handleSubmitEdit, hn, he, hjd, hres]
  · intro hres
    simp [handleDeleteMember, hres]

/-- C7 witness: a conflicting add, an edit of a non-existent record and a
delete of a non-existent record each leave the sample cache untouched and
surface the server's message. -/
theorem C7_no_cache_mutation_on_failure_witness :
    ((handleSubmitAdd ⟨[eve], none, none⟩ storeEve "Ann" "eve@x.com" "Basic" "2024-01-01"
        "Active").1.members = [eve] ∧
      (handleSubmitAdd ⟨[eve], none, none⟩ storeEve "Ann" "eve@x.com" "Basic" "2024-01-01"
        "Active").1.errorMsg = some (ApiError.message (.conflict "Email already exists.")) ∧
      (handleSubmitAdd ⟨[eve], none, none⟩ storeEve "Ann" "eve@x.com" "Basic" "2024-01-01"
        "Active").2 = storeEve) ∧
    ((handleSubmitEdit ⟨[eve], none, none⟩ storeEve annSample "Ann" "a2@x.com" "Basic"
        "2024-01-01" "Active").1.members = [eve] ∧
      (handleSubmitEdit ⟨[eve], none, none⟩ storeEve annSample "Ann" "a2@x.com" "Basic"
        "2024-01-01" "Active").1.errorMsg =
        some (ApiError.message (.notFound "Member not found or no changes made.")) ∧
      (handleSubmitEdit ⟨[eve], none, none⟩ storeEve annSample "Ann" "a2@x.com" "Basic"
        "2024-01-01" "Active").2 = storeEve) ∧
    ((handleDeleteMember ⟨[eve], none, none⟩ storeEve 99).1.members = [eve] ∧
      (handleDeleteMember ⟨[eve], none, none⟩ storeEve 99).1.errorMsg =
        some ("Error deleting member: " ++ ApiError.message (.notFound "Member not found.")) ∧
      (handleDeleteMember ⟨[eve], none, none⟩ storeEve 99).2 = storeEve) :=
  ⟨(C7_no_cache_mutation_on_failure ⟨[eve], none, none⟩ storeEve "Ann" "eve@x.com" "Basic"
      "2024-01-01" "Active" annSample 99 (.conflict "Email already exists.")).1
      (by decide) (by decide) (by decide) rfl,
    (C7_no_cache_mutation_on_failure ⟨[eve], none, none⟩ storeEve "Ann" "a2@x.com" "Basic"
      "2024-01-01" "Active" annSample 99
      (.notFound "Member not found or no changes made.")).2.1
      (by decide) (by decide) (by decide) rfl,
    (C7_no_cache_mutation_on_failure ⟨[eve], none, none⟩ storeEve "Ann" "eve@x.com" "Basic"
      "2024-01-01" "Active" annSample 99 (.notFound "Member not found.")).2.2 rfl⟩

/-- C8: the list operation returns all stored members sorted ascending by
name, every cache mutation of the View Reconciler (insert after add,
replace-by-id after update, remove after delete, wholesale replace on
refresh) keeps the cached sequence name-sorted, and inserting Bob then Ann
lists Ann before Bob. -/
theorem C8_name_sorted (s : Store) (cache : List Member) (m u : Member) (id : Nat) :
    (sortedByName (listMembers s) ∧ ∀ x, x ∈ listMembers s ↔ x ∈ s.members) ∧
    sortedByName (handleMemberAdded cache m) ∧
    sortedByName (handleUpdateComplete cache u) ∧
    (sortedByName cache → sortedByName (removeMemberById cache id)) ∧
    sortedByName (fetchMembers ⟨cache, none, none⟩ s).members ∧
    (handleMemberAdded (handleMemberAdded [] bobSample) annSample).map Member.name =
      ["Ann", "Bob"] :=
  ⟨⟨sortedByName_sortByName s.members, fun _ => mem_sortByName⟩,
    sortedByName_sortByName _, sortedByName_sortByName _,
    fun h => sortedByName_filter _ _ h, sortedByName_sortByName _, rfl⟩

/-- C8 witness: removing Bob from the sorted two-member cache keeps it
sorted. -/
theorem C8_name_sorted_witness :
    sortedByName (removeMemberById [annSample, bobSample] 1) :=
  (C8_name_sorted storeEve [annSample, bobSample] eve eve 1).2.2.2.1 (by decide)

/-- C9: a confirmed successful delete of the record currently under edit
clears the editing target, so the form transitions back to Add-mode;
deleting a record other than the editing target leaves the target
unchanged. -/
theorem C9_delete_clears_editing (c : ClientState) (st st2 : Store) (id : Nat)
    (h : deleteMember st (toString id) = .ok st2) :
    (∀ em, c.editingMember = some em → em.id = id →
      (handleDeleteMember c st id).1.editingMember = none) ∧
    (∀ em, c.editingMember = some em → em.id ≠ id →
      (handleDeleteMember c st id).1.editingMember = some em) := by
  constructor
  · intro em hem heq
    simp [handleDeleteMember, h, hem, heq]
  · intro em hem hne
    simp [handleDeleteMember, h, hem, hne]

/-- C9 witness: deleting member 5 of the sample store while it is the
editing target clears the editing target. -/
theorem C9_delete_clears_editing_witness :
    (handleDeleteMember ⟨[eve], some eve, none⟩ storeEve 5).1.editingMember = none :=
  (C9_delete_clears_editing ⟨[eve], some eve, none⟩ storeEve ⟨[], 6⟩ 5 rfl).1 eve rfl rfl

/-- C10: the id guard of delete and update rejects with 400 validation
exactly the id strings that are not numeric under the full JavaScript
ToNumber grammar (so hex, octal, binary and Infinity forms pass it, as do
non-integral and negative decimals); and the claim's example strings 3.5
and -2, which match no stored integer key, are reported as the 404
not-found on every store rather than as validation.  The not-found part is
stated at these concrete values, which are exactly representable in binary
floating point, so the model's exact comparison and MySQL's double
comparison of the coerced parameter against the integer key coincide;
the validation boundary itself is a property of the grammar alone and
involves no floating-point value. -/
theorem C10_id_guard (s : Store) (idStr : String) :
    (isValidation (deleteMember s idStr) = true ↔ jsStrToNumber idStr = none) ∧
    (∀ name email membership_type join_date status,
      updateMember s idStr name email membership_type join_date status =
        .error (.validation "Invalid member ID.") ↔ jsStrToNumber idStr = none) ∧
    (∀ s2 : Store, deleteMember s2 "3.5" = .error (.notFound "Member not found.")) ∧
    (∀ s2 : Store, deleteMember s2 "-2" = .error (.notFound "Member not found.")) ∧
    jsStrToNumber "3.5" = some ⟨35, 10⟩ ∧
    jsStrToNumber "-2" = some ⟨-2, 1⟩ ∧
    jsStrToNumber "0x10" = some ⟨16, 1⟩ ∧
    jsStrToNumber "0b101" = some ⟨5, 1⟩ ∧
    jsStrToNumber "0o17" = some ⟨15, 1⟩ ∧
    jsStrToNumber "Infinity" = some ⟨1, 0⟩ ∧
    jsStrToNumber "-Infinity" = some ⟨-1, 0⟩ ∧
    jsStrToNumber "abc" = none := by
  refine ⟨?_, ?_, ?_, ?_, rfl, rfl, rfl, rfl, rfl, rfl, rfl, rfl⟩
  · cases hq : jsStrToNumber idStr with
    | none => simp [deleteMember, hq, isValidation]
    | some q =>
      simp only [deleteMember, hq]
      split_ifs <;> simp [isValidation]
  · intro name email membership_type join_date status
    cases hq : jsStrToNumber idStr with
    | none => simp [updateMember, hq]
    | some q =>
      simp only [updateMember, hq]
      constructor
      · intro hcontra
        exfalso
        by_cases h1 : (decide (name = "") && decide (email = "") &&
            decide (membership_type = "") && decide (join_date = "") &&
            decide (status = "")) = true
        · rw [if_pos h1] at hcontra
          simp at hcontra
        · rw [if_neg h1] at hcontra
          cases hjd2 : (if join_date = "" then some "" else normalizeJoinDate join_date) with
          | none =>
            simp only [hjd2] at hcontra
            simp at hcontra
          | some fjd =>
            simp only [hjd2] at hcontra
            cases hfind : s.members.find? (fun x => q.eqNat x.id) with
            | none =>
              simp only [hfind] at hcontra
              simp at hcontra
            | some m =>
              simp only [hfind] at hcontra
              split_ifs at hcontra
              simp at hcontra
      · intro h0
        exact Option.noConfusion h0
  · intro s2
    have hq : jsStrToNumber "3.5" = some ⟨35, 10⟩ := rfl
    have hfil : s2.members.filter (fun m => !JsNum.eqNat ⟨35, 10⟩ m.id) = s2.members := by
      apply List.filter_eq_self.mpr
      intro a _
      have : JsNum.eqNat ⟨35, 10⟩ a.id = false := by
        simp only [JsNum.eqNat, decide_eq_false_iff_not]
        omega
      simp [this]
    simp [deleteMember, hq, hfil]
  · intro s2
    have hq : jsStrToNumber "-2" = some ⟨-2, 1⟩ := rfl
    have hfil : s2.members.filter (fun m => !JsNum.eqNat ⟨-2, 1⟩ m.id) = s2.members := by
      apply List.filter_eq_self.mpr
      intro a _
      have : JsNum.eqNat ⟨-2, 1⟩ a.id = false := by
        simp only [JsNum.eqNat, decide_eq_false_iff_not]
        omega
      simp [this]
    simp [deleteMember, hq, hfil]

/-- C10 witness: on the sample store, the numeric non-matching id strings
3.5 and -2 are reported as not-found rather than validation, and the hex
id string 0x10, numeric under the ToNumber grammar, satisfies the
validation characterization without being rejected. -/
theorem C10_id_guard_witness :
    deleteMember storeEve "3.5" = .error (.notFound "Member not found.") ∧
    deleteMember storeEve "-2" = .error (.notFound "Member not found.") ∧
    (isValidation (deleteMember storeEve "0x10") = true ↔ jsStrToNumber "0x10" = none) :=
  ⟨(C10_id_guard storeEve "3.5").2.2.1 storeEve,
    (C10_id_guard storeEve "-2").2.2.2.1 storeEve,
    (C10_id_guard storeEve "0x10").1⟩

end Gym
